import Mathlib

/-!
Verification of the credential lifecycle and session-state machine of the
supabase-jwt single-page application (src/pages/index.tsx).

The TypeScript source is shallowly embedded below.  Strings are handled as
lists of characters; the browser built-ins the page relies on (atob, which
implements the WHATWG forgiving-base64 decode, and JSON.parse) are embedded
as executable Lean functions returning Option, with a thrown exception
modelled as none (or as an explicit JsError value where the control flow of
the page depends on the exception).
-/

namespace SupabaseJwt

/-! ## Character helpers -/

/-- ASCII whitespace, the class stripped by the forgiving-base64 decode
used by the browser atob built-in. -/
def isAsciiWhitespace (c : Char) : Bool :=
  c = ' ' || c = '\t' || c = '\n' || c = '\x0c' || c = '\r'

/-- Value of a character in the standard base64 alphabet (RFC 4648),
none when the character is not in the alphabet. -/
def base64Val (c : Char) : Option Nat :=
  if 'A' ≤ c ∧ c ≤ 'Z' then some (c.toNat - 'A'.toNat)
  else if 'a' ≤ c ∧ c ≤ 'z' then some (c.toNat - 'a'.toNat + 26)
  else if '0' ≤ c ∧ c ≤ '9' then some (c.toNat - '0'.toNat + 52)
  else if c = '+' then some 62
  else if c = '/' then some 63
  else none

/-- Splitting a character list on the dot character, with the semantics of
the JavaScript String.split call used throughout index.tsx: the result is
never empty, and empty segments are kept. -/
def splitOnDot : List Char → List (List Char)
  | [] => [[]]
  | c :: rest =>
    let r := splitOnDot rest
    if c = '.' then [] :: r
    else
      match r with
      | s :: ss => (c :: s) :: ss
      | [] => [[c]]

/-! ## atob: forgiving-base64 decode -/

/-- Turns a list of base64 sextet values into bytes, three bytes per group
of four sextets; a dangling group of two or three sextets yields one or two
bytes with the trailing bits discarded, as the forgiving-base64 decode
does.  A dangling single sextet is rejected (the caller rules it out by a
length check, but the function is total). -/
def decodeSextets : List Nat → Option (List Nat)
  | [] => some []
  | [_] => none
  | [a, b] => some [a * 4 + b / 16]
  | [a, b, c] => some [a * 4 + b / 16, b % 16 * 16 + c / 4]
  | a :: b :: c :: d :: rest =>
    (decodeSextets rest).map fun tl =>
      (a * 4 + b / 16) :: (b % 16 * 16 + c / 4) :: (c % 4 * 64 + d) :: tl

/-- The browser atob built-in (WHATWG forgiving-base64 decode): strip ASCII
whitespace, strip up to two trailing padding characters when the length is
a multiple of four, reject a remainder of one, reject characters outside
the base64 alphabet, and decode; none models the thrown
InvalidCharacterError. -/
def atob (input : List Char) : Option (List Char) :=
  let stripped := input.filter fun c => !isAsciiWhitespace c
  let unpadded :=
    if stripped.length % 4 = 0 then
      match stripped.reverse with
      | '=' :: '=' :: rest => rest.reverse
      | '=' :: rest => rest.reverse
      | _ => stripped
    else stripped
  if unpadded.length % 4 = 1 then none
  else do
    let sextets ← unpadded.mapM base64Val
    let bytes ← decodeSextets sextets
    some (bytes.map Char.ofNat)

/-! ## JSON values and JSON.parse -/

/-- JSON values as produced by JSON.parse.  Numbers keep their source
literal: no theorem below depends on numeric values, only on the shape of
the parsed data and on its string fields. -/
inductive Js where
  | null
  | bool (b : Bool)
  | num (literal : String)
  | str (s : String)
  | arr (elems : List Js)
  | obj (fields : List (String × Js))

/-- JSON insignificant whitespace. -/
def jsonWs (c : Char) : Bool :=
  c = ' ' || c = '\t' || c = '\n' || c = '\r'

/-- Drops leading JSON whitespace. -/
def skipWs : List Char → List Char
  | [] => []
  | c :: rest => if jsonWs c then skipWs rest else c :: rest

/-- Value of a hexadecimal digit. -/
def hexVal (c : Char) : Option Nat :=
  if '0' ≤ c ∧ c ≤ '9' then some (c.toNat - '0'.toNat)
  else if 'a' ≤ c ∧ c ≤ 'f' then some (c.toNat - 'a'.toNat + 10)
  else if 'A' ≤ c ∧ c ≤ 'F' then some (c.toNat - 'A'.toNat + 10)
  else none

/-- The character named by a single-character JSON escape. -/
def escapeChar (c : Char) : Option Char :=
  if c = '"' then some '"'
  else if c = '\\' then some '\\'
  else if c = '/' then some '/'
  else if c = 'b' then some '\x08'
  else if c = 'f' then some '\x0c'
  else if c = 'n' then some '\n'
  else if c = 'r' then some '\r'
  else if c = 't' then some '\t'
  else none

/-- Body of a JSON string after the opening quote: returns the decoded
characters and the input following the closing quote. -/
def parseStringBody : List Char → Option (List Char × List Char)
  | [] => none
  | '"' :: rest => some ([], rest)
  | '\\' :: 'u' :: h1 :: h2 :: h3 :: h4 :: rest => do
    let a ← hexVal h1
    let b ← hexVal h2
    let c ← hexVal h3
    let d ← hexVal h4
    let (s, r) ← parseStringBody rest
    some (Char.ofNat (a * 4096 + b * 256 + c * 16 + d) :: s, r)
  | '\\' :: c :: rest => do
    let e ← escapeChar c
    let (s, r) ← parseStringBody rest
    some (e :: s, r)
  | c :: rest =>
    if c.toNat < 32 then none
    else (parseStringBody rest).map fun p => (c :: p.1, p.2)

/-- Longest prefix of decimal digits, and the rest. -/
def spanDigits : List Char → List Char × List Char
  | [] => ([], [])
  | c :: rest =>
    if '0' ≤ c ∧ c ≤ '9' then
      let (ds, r) := spanDigits rest
      (c :: ds, r)
    else ([], c :: rest)

/-- Integer part of a JSON number: a single zero, or a nonzero digit
followed by digits. -/
def parseIntPart : List Char → Option (List Char × List Char)
  | [] => none
  | c :: rest =>
    if c = '0' then some (['0'], rest)
    else if '1' ≤ c ∧ c ≤ '9' then
      let (ds, r) := spanDigits rest
      some (c :: ds, r)
    else none

/-- Optional fraction part of a JSON number. -/
def parseFracPart : List Char → Option (List Char × List Char)
  | '.' :: rest =>
    let (ds, r) := spanDigits rest
    if ds.isEmpty then none else some ('.' :: ds, r)
  | cs => some ([], cs)

/-- Optional exponent part of a JSON number. -/
def parseExpPart : List Char → Option (List Char × List Char)
  | [] => some ([], [])
  | c :: rest =>
    if c = 'e' ∨ c = 'E' then
      let (sign, r1) :=
        match rest with
        | s :: r1 => if s = '+' ∨ s = '-' then ([s], r1) else ([], rest)
        | [] => ([], rest)
      let (ds, r2) := spanDigits r1
      if ds.isEmpty then none else some (c :: (sign ++ ds), r2)
    else some ([], c :: rest)

/-- A JSON number literal: optional minus, integer part, optional fraction
and exponent.  Returns the literal characters and the rest of the input. -/
def parseNumber (cs : List Char) : Option (List Char × List Char) := do
  let (neg, cs1) :=
    match cs with
    | '-' :: r => ([('-' : Char)], r)
    | _ => ([], cs)
  let (ip, r1) ← parseIntPart cs1
  let (fp, r2) ← parseFracPart r1
  let (ep, r3) ← parseExpPart r2
  some (neg ++ ip ++ fp ++ ep, r3)

mutual

/-- A JSON value, by recursive descent with explicit fuel. -/
def parseValue : Nat → List Char → Option (Js × List Char)
  | 0, _ => none
  | fuel + 1, cs =>
    match skipWs cs with
    | 'n' :: 'u' :: 'l' :: 'l' :: r => some (.null, r)
    | 't' :: 'r' :: 'u' :: 'e' :: r => some (.bool true, r)
    | 'f' :: 'a' :: 'l' :: 's' :: 'e' :: r => some (.bool false, r)
    | '"' :: r => (parseStringBody r).map fun p => (.str (String.mk p.1), p.2)
    | '[' :: r =>
      match skipWs r with
      | ']' :: r2 => some (.arr [], r2)
      | r2 => (parseElems fuel r2).map fun p => (.arr p.1, p.2)
    | '{' :: r =>
      match skipWs r with
      | '}' :: r2 => some (.obj [], r2)
      | r2 => (parseMembers fuel r2).map fun p => (.obj p.1, p.2)
    | cs2 => (parseNumber cs2).map fun p => (.num (String.mk p.1), p.2)

/-- Comma-separated JSON array elements up to the closing bracket. -/
def parseElems : Nat → List Char → Option (List Js × List Char)
  | 0, _ => none
  | fuel + 1, cs => do
    let (v, r) ← parseValue fuel cs
    match skipWs r with
    | ',' :: r2 => do
      let (vs, r3) ← parseElems fuel r2
      some (v :: vs, r3)
    | ']' :: r2 => some ([v], r2)
    | _ => none

/-- Comma-separated JSON object members up to the closing brace. -/
def parseMembers : Nat → List Char → Option (List (String × Js) × List Char)
  | 0, _ => none
  | fuel + 1, cs =>
    match skipWs cs with
    | '"' :: r => do
      let (k, r1) ← parseStringBody r
      match skipWs r1 with
      | ':' :: r2 => do
        let (v, r3) ← parseValue fuel r2
        match skipWs r3 with
        | ',' :: r4 => do
          let (ms, r5) ← parseMembers fuel r4
          some ((String.mk k, v) :: ms, r5)
        | '}' :: r4 => some ([(String.mk k, v)], r4)
        | _ => none
      | _ => none
    | _ => none

end

/-- JSON.parse: parse one value and require that only whitespace follows;
none models the thrown parse error.  The fuel bound is generous: every two
units of fuel consume at least one input character. -/
def jsonParse (cs : List Char) : Option Js :=
  match parseValue (2 * cs.length + 2) cs with
  | some (v, rest) => if (skipWs rest).isEmpty then some v else none
  | none => none

/-- JavaScript property read on a parsed JSON value: on an object the last
binding of the key wins; on every non-object (and on a missing key) the
read yields undefined, modelled as none.  Reading a property of null
throws; callers that can meet null handle it before calling this. -/
def jsGetField (v : Js) (key : String) : Option Js :=
  match v with
  | .obj fields => fields.foldl (fun acc f => if f.1 = key then some f.2 else acc) none
  | _ => none

/-! ## The Key Guard: checkForServiceRole (index.tsx lines 143-156) -/

/-- The exceptions the page can meet while decoding a token payload:
atob throws InvalidCharacterError, JSON.parse throws a parse error, and a
property read on null throws TypeError. -/
inductive JsError where
  | invalidCharacter
  | parseFailure
  | typeError
deriving DecidableEq

/-- Body of the try block of checkForServiceRole (lines 148-153): decode
the payload segment with atob, parse it with JSON.parse, and compare the
role property of the result against the string service_role with strict
equality.  An exception escapes as Except.error. -/
def serviceRoleTry (payload : List Char) : Except JsError Bool :=
  match atob payload with
  | none => .error .invalidCharacter
  | some json =>
    match jsonParse json with
    | none => .error .parseFailure
    | some data =>
      match data with
      | .null => .error .typeError
      | _ =>
        .ok (match jsGetField data "role" with
             | some (.str s) => s = "service_role"
             | _ => false)

/-- checkForServiceRole (lines 143-156): split the candidate on dots; with
anything but exactly three segments return false; otherwise run the try
block on the middle segment and map any caught exception to false. -/
def checkForServiceRole (jwt : String) : Bool :=
  let split := splitOnDot jwt.data
  if split.length ≠ 3 then false
  else
    match serviceRoleTry (split.getD 1 []) with
    | .ok b => b
    | .error _ => false

/-! ## Sessions and the Token Decoder (index.tsx lines 92-141) -/

/-- The user object carried by a session; only the email is read by the
page (line 103). -/
structure User where
  email : String
deriving DecidableEq

/-- An authentication session as consumed by the page: the access token
and the signed-in user. -/
structure Session where
  access_token : String
  user : User
deriving DecidableEq

/-- The claims decode performed inline at line 133:
JSON.parse(atob(token.split(".")[1])).  When the token has fewer than two
dot-separated segments, the JavaScript index read yields undefined, which
atob coerces to the nine-character string undefined (and then rejects).
An exception escapes to the caller as Except.error: there is no catch on
this path. -/
def decodeClaims (token : String) : Except JsError Js :=
  let payload : List Char :=
    match (splitOnDot token.data).get? 1 with
    | some p => p
    | none => "undefined".data
  match atob payload with
  | none => .error .invalidCharacter
  | some json =>
    match jsonParse json with
    | none => .error .parseFailure
    | some v => .ok v

/-- What the SessionPanel view (lines 97-141) shows when it renders. -/
structure RenderedSessionPanel where
  email : String
  accessToken : String
  claims : Js

/-- Rendering SessionPanel: the email, the raw access token, and the
decoded claims.  The claims decode is not guarded, so its exception
propagates out of the render (Except.error models the render throwing,
which crashes the view). -/
def renderSessionPanel (s : Session) : Except JsError RenderedSessionPanel :=
  match decodeClaims s.access_token with
  | .error e => .error e
  | .ok v => .ok { email := s.user.email, accessToken := s.access_token, claims := v }

/-! ## Orchestrator state and the key/url update handlers (lines 215-231) -/

/-- Storage key for the Supabase URL (line 158). -/
def URL_STORAGE_KEY : String := "SB_URL"

/-- Storage key for the public key (line 159). -/
def KEY_STORAGE_KEY : String := "SB_KEY"

/-- The warning alerted when a service-role key is rejected (lines 218-220). -/
def serviceRoleWarning : String :=
  "This is your service_role key - do not share this willy nilly. We only need your anon key. Input rejected"

/-- The observable outcome of one call to updateKey (lines 215-226):
which alerts were raised, the value left in the key field, and the writes
issued to localStorage. -/
structure UpdateKeyResult where
  alerts : List String
  newKey : String
  storeWrites : List (String × String)
deriving DecidableEq

/-- updateKey (lines 215-226): when the Key Guard classifies the candidate
as the service-role key, alert, clear the field and return without
persisting; otherwise set the field and persist the candidate. -/
def updateKey (candidate : String) : UpdateKeyResult :=
  if checkForServiceRole candidate then
    { alerts := [serviceRoleWarning], newKey := "", storeWrites := [] }
  else
    { alerts := [], newKey := candidate, storeWrites := [(KEY_STORAGE_KEY, candidate)] }

/-- The credential fields of the Home component together with their
localStorage mirror. -/
structure CredState where
  url : Option String
  key : Option String
  storedUrl : Option String
  storedKey : Option String
deriving DecidableEq

/-- The credential state on a fresh load with empty storage. -/
def initialCredState : CredState :=
  { url := none, key := none, storedUrl := none, storedKey := none }

/-- A user-input write: the onChange handlers of the two inputs call
updateKey and updateUrl respectively (lines 291 and 305). -/
inductive InputEvent where
  | setKeyInput (s : String)
  | setUrlInput (s : String)
deriving DecidableEq

/-- One user-input write applied to the credential state: the key path is
updateKey (lines 215-226), the url path is updateUrl (lines 228-231),
which stores unconditionally and consults no guard. -/
def stepInput : InputEvent → CredState → CredState
  | .setKeyInput s, st =>
    if checkForServiceRole s then { st with key := some "" }
    else { st with key := some s, storedKey := some s }
  | .setUrlInput s, st => { st with url := some s, storedUrl := some s }

/-- A sequence of user-input writes applied in order. -/
def runInputs (evs : List InputEvent) (st : CredState) : CredState :=
  evs.foldl (fun s e => stepInput e s) st

/-! ## The Session Reconciler (lines 195-213) -/

/-- The onAuthStateChange callback (lines 200-208): a signed-in or
token-refreshed event with a non-null session stores that session
unconditionally; a signed-out event clears it; every other combination
leaves the stored session alone. -/
def onAuthStateChange (event : String) (payload : Option Session)
    (current : Option Session) : Option Session :=
  let afterSignIn :=
    if payload.isSome ∧ (event = "SIGNED_IN" ∨ event = "TOKEN_REFRESHED") then payload
    else current
  if event = "SIGNED_OUT" then none else afterSignIn

/-- A stream of auth events folded through the callback, in arrival
order. -/
def runEvents (evs : List (String × Option Session)) (st : Option Session) :
    Option Session :=
  evs.foldl (fun s p => onAuthStateChange p.1 p.2 s) st

/-! ## The Client Factory (the useMemo at lines 181-193) -/

/-- The client handle as far as this page observes it: the configuration
it was built from. -/
structure SupabaseClient where
  supabaseUrl : String
  supabaseKey : String
deriving DecidableEq

/-- The error message set when a credential is missing (line 183). -/
def missingCredsMessage : String := "A valid Supabase Key and URL are required"

/-- The value of the memo together with the error state it leaves
behind. -/
structure MemoResult where
  client : Option SupabaseClient
  error : Option String
deriving DecidableEq

/-- The useMemo at lines 181-193.  createClient is the external library
constructor and may throw, so it is passed in as a function returning
Except.  A missing or empty url or key (both falsy in JavaScript) yields
no client and the fixed message; a successful construction clears the
error; a thrown construction error is captured verbatim. -/
def supabaseMemo (createClient : String → String → Except String SupabaseClient)
    (url key : Option String) : MemoResult :=
  if (key = none ∨ key = some "") ∨ (url = none ∨ url = some "") then
    { client := none, error := some missingCredsMessage }
  else
    match createClient (url.getD "") (key.getD "") with
    | .ok c => { client := some c, error := none }
    | .error msg => { client := none, error := some msg }

/-! ## The subscription lifecycle (the useEffect at lines 195-213)

The useEffect subscribes to the auth-event stream of the current client
and returns a cleanup that calls subscription.unsubscribe().  React runs
the cleanup of the previous effect before re-running the effect when a
dependency (the client handle) changes, and on unmount.  The auth client
honours the documented subscribe/unsubscribe contract: unsubscribe
removes the callback from the delivery list synchronously, and an event
is delivered exactly to the callbacks registered at delivery time.  The
state machine below embeds the effect under those two contracts;
subscriptions are named by fresh numeric identifiers. -/

/-- The subscription bus and the effect bookkeeping: the identifiers
currently registered for delivery, the identifier held by the pending
cleanup (the subscription variable captured at line 199), the next fresh
identifier, and the log of deliveries made so far. -/
structure SubState where
  bus : List Nat
  current : Option Nat
  nextId : Nat
  delivered : List (Nat × String)
deriving DecidableEq

/-- The state before the first effect run. -/
def initSubState : SubState :=
  { bus := [], current := none, nextId := 0, delivered := [] }

/-- The effect cleanup (lines 210-212): unsubscribe the captured
subscription, which removes it from the bus; a no-op when the previous
effect run subscribed nothing (the guard at line 197). -/
def runCleanup (st : SubState) : SubState :=
  match st.current with
  | none => st
  | some id => { st with bus := st.bus.erase id, current := none }

/-- The effect body (lines 196-208): with no client the guard returns
early and nothing is subscribed; with a client a fresh subscription is
registered on the bus and captured for the next cleanup. -/
def runEffectBody (hasClient : Bool) (st : SubState) : SubState :=
  if hasClient then
    { st with
      bus := st.bus ++ [st.nextId]
      current := some st.nextId
      nextId := st.nextId + 1 }
  else st

/-- What can happen to the subscription system: the client handle changes
(React runs the old cleanup, then the effect body), the owning component
is torn down (cleanup only), or the stream delivers an event to every
registered subscription. -/
inductive SubEvent where
  | handleChange (hasClient : Bool)
  | teardown
  | deliver (event : String)
deriving DecidableEq

/-- One step of the subscription system. -/
def subStep : SubEvent → SubState → SubState
  | .handleChange h, st => runEffectBody h (runCleanup st)
  | .teardown, st => runCleanup st
  | .deliver e, st => { st with delivered := st.delivered ++ st.bus.map fun id => (id, e) }

/-- A sequence of subscription-system events applied in order. -/
def runSub (evs : List SubEvent) (st : SubState) : SubState :=
  evs.foldl (fun s e => subStep e s) st

/-- The invariant of the subscription system on reachable states: the bus
holds exactly the one subscription captured for the pending cleanup, and
every registered identifier is below the fresh counter. -/
def SubInv (st : SubState) : Prop :=
  st.bus = st.current.toList ∧ ∀ i ∈ st.bus, i < st.nextId

/-! ## Theorems -/

/-- C1: for every token with exactly three dot-separated segments whose
middle segment base64-decodes and parses as structured data, the Key
Guard returns true exactly when the role field of the parsed data is the
string service_role; for any other role value, a non-string role, a
non-object result, or an absent field, it returns false. -/
theorem claim1_privileged_iff_service_role (jwt : String) (j : List Char) (v : Js)
    (h3 : (splitOnDot jwt.data).length = 3)
    (ha : atob ((splitOnDot jwt.data).getD 1 []) = some j)
    (hp : jsonParse j = some v) :
    checkForServiceRole jwt = true ↔ jsGetField v "role" = some (Js.str "service_role") := by
  have hne : ¬((splitOnDot jwt.data).length ≠ 3) := by simp [h3]
  cases v with
  | null =>
    have hfalse : checkForServiceRole jwt = false := by
      simp only [checkForServiceRole, serviceRoleTry, ha, hp]
      rw [if_neg hne]
    rw [hfalse]
    simp [jsGetField]
  | bool b =>
    have hfalse : checkForServiceRole jwt = false := by
      simp only [checkForServiceRole, serviceRoleTry, jsGetField, ha, hp]
      rw [if_neg hne]
    rw [hfalse]
    simp [jsGetField]
  | num n =>
    have hfalse : checkForServiceRole jwt = false := by
      simp only [checkForServiceRole, serviceRoleTry, jsGetField, ha, hp]
      rw [if_neg hne]
    rw [hfalse]
    simp [jsGetField]
  | str s =>
    have hfalse : checkForServiceRole jwt = false := by
      simp only [checkForServiceRole, serviceRoleTry, jsGetField, ha, hp]
      rw [if_neg hne]
    rw [hfalse]
    simp [jsGetField]
  | arr xs =>
    have hfalse : checkForServiceRole jwt = false := by
      simp only [checkForServiceRole, serviceRoleTry, jsGetField, ha, hp]
      rw [if_neg hne]
    rw [hfalse]
    simp [jsGetField]
  | obj fields =>
    have hok : checkForServiceRole jwt =
        (match jsGetField (Js.obj fields) "role" with
         | some (.str s) => s = "service_role"
         | _ => false) := by
      simp only [checkForServiceRole, serviceRoleTry, ha, hp]
      rw [if_neg hne]
    rw [hok]
    cases hr : jsGetField (Js.obj fields) "role" with
    | none => simp
    | some rv =>
      cases rv with
      | str s => simp [decide_eq_true_eq]
      | null => simp
      | bool b => simp
      | num n => simp
      | arr xs => simp
      | obj fs => simp

/-- C1 witness: the concrete service-role token of the specification. -/
theorem claim1_witness :
    (splitOnDot ("eyJhbGciOiJIUzI1NiJ9.eyJyb2xlIjoic2VydmljZV9yb2xlIn0.sig".data)).length = 3
    ∧ atob ((splitOnDot ("eyJhbGciOiJIUzI1NiJ9.eyJyb2xlIjoic2VydmljZV9yb2xlIn0.sig".data)).getD 1 []) =
        some ("\x7b\"role\":\"service_role\"\x7d".data)
    ∧ jsonParse ("\x7b\"role\":\"service_role\"\x7d".data) =
        some (Js.obj [("role", Js.str "service_role")])
    ∧ (checkForServiceRole "eyJhbGciOiJIUzI1NiJ9.eyJyb2xlIjoic2VydmljZV9yb2xlIn0.sig" = true ↔
        jsGetField (Js.obj [("role", Js.str "service_role")]) "role" = some (Js.str "service_role")) :=
  ⟨by decide, by decide, by rfl,
    claim1_privileged_iff_service_role
      "eyJhbGciOiJIUzI1NiJ9.eyJyb2xlIjoic2VydmljZV9yb2xlIn0.sig"
      ("\x7b\"role\":\"service_role\"\x7d".data)
      (Js.obj [("role", Js.str "service_role")])
      (by decide) (by decide) (by rfl)⟩

/-- C7: a candidate without exactly three dot-separated segments is never
privileged, and neither is a three-segment candidate whose middle segment
fails base64 decoding or JSON parsing. -/
theorem claim7_malformed_not_privileged (jwt : String) :
    ((splitOnDot jwt.data).length ≠ 3 → checkForServiceRole jwt = false)
    ∧ ((splitOnDot jwt.data).length = 3 →
        atob ((splitOnDot jwt.data).getD 1 []) = none → checkForServiceRole jwt = false)
    ∧ (∀ j, (splitOnDot jwt.data).length = 3 →
        atob ((splitOnDot jwt.data).getD 1 []) = some j → jsonParse j = none →
        checkForServiceRole jwt = false) := by
  refine ⟨?_, ?_, ?_⟩
  · intro h
    simp only [checkForServiceRole]
    rw [if_pos h]
  · intro h3 ha
    simp only [checkForServiceRole, serviceRoleTry, ha]
    rw [if_neg (by simp [h3])]
  · intro j h3 ha hp
    simp only [checkForServiceRole, serviceRoleTry, ha, hp]
    rw [if_neg (by simp [h3])]

/-- C7 witness: a one-segment string, a middle segment that atob rejects,
and a middle segment that decodes to non-JSON text. -/
theorem claim7_witness :
    ((splitOnDot ("not-a-jwt".data)).length ≠ 3 ∧ checkForServiceRole "not-a-jwt" = false)
    ∧ (atob ((splitOnDot ("a.!!!.c".data)).getD 1 []) = none
        ∧ checkForServiceRole "a.!!!.c" = false)
    ∧ (jsonParse ("hi".data) = none ∧ checkForServiceRole "a.aGk.c" = false) :=
  ⟨⟨by decide, (claim7_malformed_not_privileged "not-a-jwt").1 (by decide)⟩,
   ⟨by decide, (claim7_malformed_not_privileged "a.!!!.c").2.1 (by decide) (by decide)⟩,
   ⟨by rfl, (claim7_malformed_not_privileged "a.aGk.c").2.2 ("hi".data) (by decide) (by decide) (by rfl)⟩⟩

/-- C9: the Key Guard is total: it yields a boolean on every input, and
any exception raised inside its try block (atob, JSON.parse, or the
property read on null) is caught and mapped to false. -/
theorem claim9_guard_total (jwt : String) :
    (checkForServiceRole jwt = true ∨ checkForServiceRole jwt = false)
    ∧ ∀ e : JsError, serviceRoleTry ((splitOnDot jwt.data).getD 1 []) = .error e →
        checkForServiceRole jwt = false := by
  constructor
  · cases hb : checkForServiceRole jwt with
    | false => exact Or.inr rfl
    | true => exact Or.inl rfl
  · intro e he
    by_cases h3 : (splitOnDot jwt.data).length = 3
    · simp only [checkForServiceRole, he]
      rw [if_neg (by simp [h3])]
    · simp only [checkForServiceRole]
      rw [if_pos h3]

/-- C9 witness: an input whose middle segment makes atob throw; the
exception is caught and the guard returns false. -/
theorem claim9_witness :
    serviceRoleTry ((splitOnDot ("x.***.z".data)).getD 1 []) = .error .invalidCharacter
    ∧ checkForServiceRole "x.***.z" = false :=
  ⟨by rfl, (claim9_guard_total "x.***.z").2 .invalidCharacter (by rfl)⟩

/-- C2: a candidate key the Key Guard classifies as privileged is
rejected by updateKey: the warning is alerted, the key field is cleared
to the empty string, and no write reaches localStorage. -/
theorem claim2_privileged_key_rejected (candidate : String)
    (h : checkForServiceRole candidate = true) :
    updateKey candidate =
      { alerts := [serviceRoleWarning], newKey := "", storeWrites := [] } := by
  simp [updateKey, h]

/-- C2 witness: the concrete service-role token of the specification is
rejected, clears the field, and persists nothing. -/
theorem claim2_witness :
    checkForServiceRole "eyJhbGciOiJIUzI1NiJ9.eyJyb2xlIjoic2VydmljZV9yb2xlIn0.sig" = true
    ∧ updateKey "eyJhbGciOiJIUzI1NiJ9.eyJyb2xlIjoic2VydmljZV9yb2xlIn0.sig" =
        { alerts := [serviceRoleWarning], newKey := "", storeWrites := [] } :=
  ⟨by decide, claim2_privileged_key_rejected _ (by decide)⟩

/-- C4: the Session Reconciler stores the payload of a signed-in or
token-refreshed event carrying a non-null session, replacing any prior
session unconditionally; a signed-out event clears the state from any
prior state; every other event kind leaves the state unchanged; and after
a signed-out event the state is cleared regardless of earlier events. -/
theorem claim4_session_reconciler :
    (∀ (st : Option Session) (s : Session),
        onAuthStateChange "SIGNED_IN" (some s) st = some s)
    ∧ (∀ (st : Option Session) (s : Session),
        onAuthStateChange "TOKEN_REFRESHED" (some s) st = some s)
    ∧ (∀ (st p : Option Session), onAuthStateChange "SIGNED_OUT" p st = none)
    ∧ (∀ (e : String) (p st : Option Session),
        e ≠ "SIGNED_IN" → e ≠ "TOKEN_REFRESHED" → e ≠ "SIGNED_OUT" →
        onAuthStateChange e p st = st)
    ∧ (∀ (pre : List (String × Option Session)) (p st : Option Session),
        runEvents (pre ++ [("SIGNED_OUT", p)]) st = none) := by
  refine ⟨?_, ?_, ?_, ?_, ?_⟩
  · intro st s
    simp [onAuthStateChange]
  · intro st s
    simp [onAuthStateChange]
  · intro st p
    simp [onAuthStateChange]
  · intro e p st h1 h2 h3
    simp [onAuthStateChange, h1, h2, h3]
  · intro pre p st
    simp [runEvents, List.foldl_append, onAuthStateChange]

/-- C4 witness: a password-recovery event with a non-null session leaves
the state untouched. -/
theorem claim4_witness :
    ("PASSWORD_RECOVERY" : String) ≠ "SIGNED_IN"
    ∧ ("PASSWORD_RECOVERY" : String) ≠ "TOKEN_REFRESHED"
    ∧ ("PASSWORD_RECOVERY" : String) ≠ "SIGNED_OUT"
    ∧ onAuthStateChange "PASSWORD_RECOVERY"
        (some { access_token := "a.b.c", user := { email := "u@example.com" } }) none = none :=
  ⟨by decide, by decide, by decide,
    claim4_session_reconciler.2.2.2.1 "PASSWORD_RECOVERY"
      (some { access_token := "a.b.c", user := { email := "u@example.com" } }) none
      (by decide) (by decide) (by decide)⟩

/-- C10: a signed-in or token-refreshed event whose session payload is
null leaves the reconciler state unchanged: it neither clears an existing
session nor enters the has-session state. -/
theorem claim10_null_payload_ignored (st : Option Session) :
    onAuthStateChange "SIGNED_IN" none st = st
    ∧ onAuthStateChange "TOKEN_REFRESHED" none st = st := by
  constructor <;> simp [onAuthStateChange]

/-- C5: with a missing or empty url or key the Client Factory yields no
handle and the fixed message; with both present and a successful
construction it yields the handle and clears the error state. -/
theorem claim5_client_factory
    (createClient : String → String → Except String SupabaseClient)
    (url key : Option String) :
    (((key = none ∨ key = some "") ∨ (url = none ∨ url = some "")) →
      supabaseMemo createClient url key =
        { client := none, error := some missingCredsMessage })
    ∧ (∀ u k c, url = some u → key = some k →
        ¬((key = none ∨ key = some "") ∨ (url = none ∨ url = some "")) →
        createClient u k = .ok c →
        supabaseMemo createClient url key = { client := some c, error := none }) := by
  constructor
  · intro h
    simp only [supabaseMemo]
    rw [if_pos h]
  · intro u k c hu hk hmiss hok
    simp only [supabaseMemo]
    rw [if_neg hmiss]
    subst hu
    subst hk
    simp only [Option.getD_some, hok]

/-- C5 witness: an empty url is rejected with the fixed message; a
complete credential pair with a successful constructor yields the handle
and no error. -/
theorem claim5_witness :
    supabaseMemo (fun u k => .ok { supabaseUrl := u, supabaseKey := k }) (some "") (some "anon") =
      { client := none, error := some missingCredsMessage }
    ∧ supabaseMemo (fun u k => .ok { supabaseUrl := u, supabaseKey := k })
        (some "https://example.supabase.co") (some "anon") =
      { client := some { supabaseUrl := "https://example.supabase.co", supabaseKey := "anon" },
        error := none } :=
  ⟨(claim5_client_factory _ _ _).1 (Or.inr (Or.inr rfl)),
   (claim5_client_factory _ _ _).2 "https://example.supabase.co" "anon" _ rfl rfl
     (by decide) rfl⟩

/-- Key-write preservation: a state whose key field is not privileged
keeps a non-privileged key field under any sequence of user-input writes,
because the Key Guard runs before every key write (updateUrl never
touches the key field). -/
theorem key_field_guard_preserved (evs : List InputEvent) (st : CredState)
    (hst : ∀ t, st.key = some t → checkForServiceRole t = false) :
    ∀ t, (runInputs evs st).key = some t → checkForServiceRole t = false := by
  induction evs generalizing st with
  | nil => exact hst
  | cons e rest ih =>
    have hstep : ∀ t, (stepInput e st).key = some t → checkForServiceRole t = false := by
      intro t ht
      cases e with
      | setKeyInput s =>
        by_cases hc : checkForServiceRole s = true
        · simp only [stepInput] at ht
          rw [if_pos hc] at ht
          simp only at ht
          injection ht with ht2
          subst ht2
          decide
        · simp only [stepInput] at ht
          rw [if_neg hc] at ht
          simp only at ht
          injection ht with ht2
          subst ht2
          exact Bool.not_eq_true _ |>.mp hc
      | setUrlInput s =>
        simp only [stepInput] at ht
        exact hst t ht
    exact ih (stepInput e st) hstep

/-- C3 counterexample: the claim covers the endpoint URL field as well,
but updateUrl consults no guard, so a single write puts the concrete
service-role token of the specification into the URL field even though
the Key Guard classifies it as privileged. -/
theorem claim3_counterexample :
    (runInputs
        [InputEvent.setUrlInput "eyJhbGciOiJIUzI1NiJ9.eyJyb2xlIjoic2VydmljZV9yb2xlIn0.sig"]
        initialCredState).url =
      some "eyJhbGciOiJIUzI1NiJ9.eyJyb2xlIjoic2VydmljZV9yb2xlIn0.sig"
    ∧ checkForServiceRole "eyJhbGciOiJIUzI1NiJ9.eyJyb2xlIjoic2VydmljZV9yb2xlIn0.sig" = true := by
  constructor
  · rfl
  · decide

/-- C3 amended: for every sequence of user-input writes starting from the
empty credential state, the public key field is never a string the Key
Guard classifies as privileged, because the guard runs before every key
write; the endpoint URL field is written without any guard. -/
theorem claim3_key_invariant (evs : List InputEvent) (t : String)
    (h : (runInputs evs initialCredState).key = some t) :
    checkForServiceRole t = false :=
  key_field_guard_preserved evs initialCredState
    (fun t ht => by simp [initialCredState] at ht) t h

/-- C3 witness: a run that stores an anon key and a url leaves a
non-privileged key field. -/
theorem claim3_witness :
    (runInputs
        [InputEvent.setUrlInput "https://example.supabase.co",
         InputEvent.setKeyInput "eyJhbGciOiJIUzI1NiJ9.eyJyb2xlIjoiYW5vbiJ9.sig"]
        initialCredState).key =
      some "eyJhbGciOiJIUzI1NiJ9.eyJyb2xlIjoiYW5vbiJ9.sig"
    ∧ checkForServiceRole "eyJhbGciOiJIUzI1NiJ9.eyJyb2xlIjoiYW5vbiJ9.sig" = false :=
  ⟨by decide,
    claim3_key_invariant
      [InputEvent.setUrlInput "https://example.supabase.co",
       InputEvent.setKeyInput "eyJhbGciOiJIUzI1NiJ9.eyJyb2xlIjoiYW5vbiJ9.sig"]
      "eyJhbGciOiJIUzI1NiJ9.eyJyb2xlIjoiYW5vbiJ9.sig" (by decide)⟩

/-- C6 counterexample: the decode at line 133 reads only the second
dot-segment, so a two-segment token with a decodable payload decodes
successfully although it lacks the three-segment shape; and on a token
whose decode does fail, the SessionPanel render has no handler, so the
failure propagates out of the render instead of the claims panel being
omitted. -/
theorem claim6_counterexample :
    ((splitOnDot ("x.eyJyb2xlIjoiYW5vbiJ9".data)).length ≠ 3
      ∧ decodeClaims "x.eyJyb2xlIjoiYW5vbiJ9" = .ok (.obj [("role", .str "anon")]))
    ∧ (decodeClaims "abc" = .error .invalidCharacter
      ∧ renderSessionPanel { access_token := "abc", user := { email := "u@example.com" } } =
          .error .invalidCharacter) :=
  ⟨⟨by decide, by rfl⟩, by rfl, by rfl⟩

/-- C6 amended: decodeClaims fails exactly on a missing, undecodable or
unparseable second dot-segment (the segment count is otherwise not
checked), and the session display does not handle the failure: the decode
error propagates out of the render, so the view fails instead of omitting
the claims panel. -/
theorem claim6_decode_failure_propagates (t : String) :
    ((splitOnDot t.data).get? 1 = none → decodeClaims t = .error .invalidCharacter)
    ∧ (∀ p, (splitOnDot t.data).get? 1 = some p → atob p = none →
        decodeClaims t = .error .invalidCharacter)
    ∧ (∀ p j, (splitOnDot t.data).get? 1 = some p → atob p = some j → jsonParse j = none →
        decodeClaims t = .error .parseFailure)
    ∧ (∀ (s : Session) (e : JsError), s.access_token = t → decodeClaims t = .error e →
        renderSessionPanel s = .error e) := by
  refine ⟨?_, ?_, ?_, ?_⟩
  · intro h
    have ha : atob ("undefined".data) = none := by decide
    simp only [decodeClaims, h, ha]
  · intro p hp ha
    simp only [decodeClaims, hp, ha]
  · intro p j hp ha hj
    simp only [decodeClaims, hp, ha, hj]
  · intro s e hs hd
    simp only [renderSessionPanel, hs, hd]

/-- C6 witness: a token with no second segment fails to decode. -/
theorem claim6_witness :
    (splitOnDot ("abc".data)).get? 1 = none
    ∧ decodeClaims "abc" = .error .invalidCharacter :=
  ⟨by decide, (claim6_decode_failure_propagates "abc").1 (by decide)⟩

/-- Unfolding one step of the subscription run. -/
theorem runSub_cons (e : SubEvent) (evs : List SubEvent) (st : SubState) :
    runSub (e :: evs) st = runSub evs (subStep e st) := rfl

/-- Splitting a subscription run at an append. -/
theorem runSub_append (l1 l2 : List SubEvent) (st : SubState) :
    runSub (l1 ++ l2) st = runSub l2 (runSub l1 st) := by
  simp [runSub, List.foldl_append]

/-- The cleanup only removes from the bus. -/
theorem runCleanup_bus_mem (st : SubState) (i : Nat)
    (hi : i ∈ (runCleanup st).bus) : i ∈ st.bus := by
  cases hcur : st.current with
  | none => simpa [runCleanup, hcur] using hi
  | some c =>
    simp only [runCleanup, hcur] at hi
    exact List.mem_of_mem_erase hi

/-- The cleanup keeps the fresh counter. -/
theorem runCleanup_nextId (st : SubState) : (runCleanup st).nextId = st.nextId := by
  cases hcur : st.current <;> simp [runCleanup, hcur]

/-- The cleanup keeps the delivery log. -/
theorem runCleanup_delivered (st : SubState) :
    (runCleanup st).delivered = st.delivered := by
  cases hcur : st.current <;> simp [runCleanup, hcur]

/-- The effect body keeps the delivery log. -/
theorem runEffectBody_delivered (b : Bool) (st : SubState) :
    (runEffectBody b st).delivered = st.delivered := by
  cases b <;> simp [runEffectBody]

/-- The subscription invariant holds initially. -/
theorem subInv_init : SubInv initSubState := by
  constructor
  · rfl
  · intro i hi
    simp [initSubState] at hi

/-- On an invariant state the cleanup empties the bus, clears the
captured subscription, and changes nothing else: cancellation is
synchronous and total. -/
theorem runCleanup_spec (st : SubState) (h : SubInv st) :
    (runCleanup st).bus = [] ∧ (runCleanup st).current = none
    ∧ (runCleanup st).nextId = st.nextId ∧ (runCleanup st).delivered = st.delivered := by
  obtain ⟨hbus, _⟩ := h
  cases hcur : st.current with
  | none =>
    have hb : st.bus = [] := by rw [hbus, hcur]; rfl
    simp [runCleanup, hcur, hb]
  | some c =>
    have hb : st.bus = [c] := by rw [hbus, hcur]; rfl
    simp [runCleanup, hcur, hb]

/-- One step of the subscription system preserves the invariant. -/
theorem subInv_step (e : SubEvent) (st : SubState) (h : SubInv st) :
    SubInv (subStep e st) := by
  obtain ⟨hc1, hc2, hc3, hc4⟩ := runCleanup_spec st h
  obtain ⟨hbus, hbound⟩ := h
  cases e with
  | handleChange b =>
    cases b with
    | false =>
      have heq : subStep (SubEvent.handleChange false) st = runCleanup st := by
        simp [subStep, runEffectBody]
      rw [heq]
      refine ⟨by rw [hc1, hc2]; rfl, ?_⟩
      intro i hi
      rw [hc1] at hi
      cases hi
    | true =>
      refine ⟨?_, ?_⟩
      · show (runEffectBody true (runCleanup st)).bus =
          (runEffectBody true (runCleanup st)).current.toList
        simp [runEffectBody, hc1]
      · intro i hi
        simp only [subStep, runEffectBody, if_pos, hc1] at hi ⊢
        simp at hi
        omega
  | teardown =>
    refine ⟨by rw [show subStep SubEvent.teardown st = runCleanup st from rfl, hc1, hc2]; rfl, ?_⟩
    intro i hi
    rw [show subStep SubEvent.teardown st = runCleanup st from rfl, hc1] at hi
    cases hi
  | deliver ev =>
    exact ⟨hbus, hbound⟩

/-- The invariant holds on every reachable state. -/
theorem subInv_run (evs : List SubEvent) (st : SubState) (h : SubInv st) :
    SubInv (runSub evs st) := by
  induction evs generalizing st with
  | nil => exact h
  | cons e rest ih =>
    rw [runSub_cons]
    exact ih (subStep e st) (subInv_step e st h)

/-- A cancelling step (a handle change or a teardown) leaves on the bus
at most the freshly created subscription, does not lower the fresh
counter, and delivers nothing. -/
theorem cancelStep_spec (s1 : SubEvent) (st : SubState)
    (hcancel : s1 = SubEvent.teardown ∨ ∃ b, s1 = SubEvent.handleChange b)
    (hinv : SubInv st) :
    (∀ i, i ∈ (subStep s1 st).bus → i = st.nextId)
    ∧ st.nextId ≤ (subStep s1 st).nextId
    ∧ (subStep s1 st).delivered = st.delivered := by
  obtain ⟨hc1, hc2, hc3, hc4⟩ := runCleanup_spec st hinv
  rcases hcancel with rfl | ⟨b, rfl⟩
  · have heq : subStep SubEvent.teardown st = runCleanup st := rfl
    rw [heq, hc1, hc3, hc4]
    exact ⟨fun i hi => absurd hi (List.not_mem_nil i), le_refl _, rfl⟩
  · cases b with
    | false =>
      have heq : subStep (SubEvent.handleChange false) st = runCleanup st := by
        simp [subStep, runEffectBody]
      rw [heq, hc1, hc3, hc4]
      exact ⟨fun i hi => absurd hi (List.not_mem_nil i), le_refl _, rfl⟩
    | true =>
      refine ⟨?_, ?_, ?_⟩
      · intro i hi
        have hb : (subStep (SubEvent.handleChange true) st).bus = [st.nextId] := by
          show (runEffectBody true (runCleanup st)).bus = [st.nextId]
          simp [runEffectBody, hc1, hc3]
        rw [hb] at hi
        simpa using hi
      · have hn : (subStep (SubEvent.handleChange true) st).nextId = st.nextId + 1 := by
          show (runEffectBody true (runCleanup st)).nextId = st.nextId + 1
          simp [runEffectBody, hc3]
        omega
      · show (runEffectBody true (runCleanup st)).delivered = st.delivered
        rw [runEffectBody_delivered, hc4]

/-- An identifier that is off the bus and below the fresh counter never
returns to the bus and never receives a delivery. -/
theorem excluded_stays_excluded (evs : List SubEvent) (st : SubState) (id : Nat)
    (hnot : id ∉ st.bus) (hlt : id < st.nextId)
    (hbound : ∀ i ∈ st.bus, i < st.nextId) :
    id ∉ (runSub evs st).bus
    ∧ ∀ ev, (id, ev) ∈ (runSub evs st).delivered → (id, ev) ∈ st.delivered := by
  induction evs generalizing st with
  | nil => exact ⟨hnot, fun _ h => h⟩
  | cons e rest ih =>
    have hstep : id ∉ (subStep e st).bus ∧ id < (subStep e st).nextId
        ∧ (∀ i ∈ (subStep e st).bus, i < (subStep e st).nextId)
        ∧ (∀ ev, (id, ev) ∈ (subStep e st).delivered → (id, ev) ∈ st.delivered) := by
      cases e with
      | handleChange b =>
        cases b with
        | false =>
          have heq : subStep (SubEvent.handleChange false) st = runCleanup st := by
            simp [subStep, runEffectBody]
          rw [heq, runCleanup_nextId, runCleanup_delivered]
          exact ⟨fun h => hnot (runCleanup_bus_mem st id h), hlt,
            fun i hi => hbound i (runCleanup_bus_mem st i hi),
            fun _ h => h⟩
        | true =>
          have hb : (subStep (SubEvent.handleChange true) st).bus =
              (runCleanup st).bus ++ [st.nextId] := by
            show (runEffectBody true (runCleanup st)).bus = (runCleanup st).bus ++ [st.nextId]
            simp [runEffectBody, runCleanup_nextId]
          have hn : (subStep (SubEvent.handleChange true) st).nextId = st.nextId + 1 := by
            show (runEffectBody true (runCleanup st)).nextId = st.nextId + 1
            simp [runEffectBody, runCleanup_nextId]
          have hd : (subStep (SubEvent.handleChange true) st).delivered = st.delivered := by
            show (runEffectBody true (runCleanup st)).delivered = st.delivered
            rw [runEffectBody_delivered, runCleanup_delivered]
          refine ⟨?_, ?_, ?_, ?_⟩
          · rw [hb]
            intro h
            rcases List.mem_append.mp h with h | h
            · exact hnot (runCleanup_bus_mem st id h)
            · have : id = st.nextId := by simpa using h
              omega
          · rw [hn]
            omega
          · intro i hi
            rw [hb] at hi
            rw [hn]
            rcases List.mem_append.mp hi with h | h
            · have := hbound i (runCleanup_bus_mem st i h)
              omega
            · have : i = st.nextId := by simpa using h
              omega
          · rw [hd]
            exact fun _ h => h
      | teardown =>
        have heq : subStep SubEvent.teardown st = runCleanup st := rfl
        rw [heq, runCleanup_nextId, runCleanup_delivered]
        exact ⟨fun h => hnot (runCleanup_bus_mem st id h), hlt,
          fun i hi => hbound i (runCleanup_bus_mem st i hi),
          fun _ h => h⟩
      | deliver e0 =>
        refine ⟨hnot, hlt, hbound, ?_⟩
        intro ev h
        simp only [subStep] at h
        rcases List.mem_append.mp h with h | h
        · exact h
        · obtain ⟨i, hi, heq⟩ := List.mem_map.mp h
          simp only [Prod.mk.injEq] at heq
          obtain ⟨rfl, rfl⟩ := heq
          exact absurd hi hnot
    obtain ⟨ha, hb2, hc, hd2⟩ := hstep
    obtain ⟨r1, r2⟩ := ih (subStep e st) ha hb2 hc
    refine ⟨?_, ?_⟩
    · rw [runSub_cons]
      exact r1
    · intro ev h
      rw [runSub_cons] at h
      exact hd2 ev (r2 ev h)

/-- C8: along every event trace of the subscription system, when the
client handle changes or the owning component is torn down, the previous
subscription is cancelled: it is already off the bus after the cleanup
and before any new subscription is established, it is off the bus after
the cancelling step completes, and no event is ever delivered to it
afterwards (every delivery it appears in predates the cancellation). -/
theorem claim8_subscription_lifecycle
    (pre : List SubEvent) (s1 : SubEvent) (rest : List SubEvent) (id : Nat)
    (hcancel : s1 = SubEvent.teardown ∨ ∃ b, s1 = SubEvent.handleChange b)
    (hmem : id ∈ (runSub pre initSubState).bus) :
    id ∉ (runCleanup (runSub pre initSubState)).bus
    ∧ id ∉ (runSub (pre ++ [s1]) initSubState).bus
    ∧ ∀ ev, (id, ev) ∈ (runSub (pre ++ s1 :: rest) initSubState).delivered →
        (id, ev) ∈ (runSub pre initSubState).delivered := by
  have hinv : SubInv (runSub pre initSubState) := subInv_run pre initSubState subInv_init
  obtain ⟨hc1, hc2, hc3, hc4⟩ := runCleanup_spec _ hinv
  have hlt : id < (runSub pre initSubState).nextId := hinv.2 id hmem
  obtain ⟨hsb, hsn, hsd⟩ := cancelStep_spec s1 _ hcancel hinv
  have hnotstep : id ∉ (subStep s1 (runSub pre initSubState)).bus := by
    intro h
    have := hsb id h
    omega
  refine ⟨?_, ?_, ?_⟩
  · rw [hc1]
    exact List.not_mem_nil id
  · rw [runSub_append]
    exact hnotstep
  · intro ev hdel
    rw [runSub_append, runSub_cons] at hdel
    have hboundstep := (subInv_step s1 _ hinv).2
    have hltstep : id < (subStep s1 (runSub pre initSubState)).nextId := lt_of_lt_of_le hlt hsn
    have hback :=
      (excluded_stays_excluded rest (subStep s1 (runSub pre initSubState)) id
        hnotstep hltstep hboundstep).2 ev hdel
    rw [hsd] at hback
    exact hback

/-- C8 witness: the concrete scenario of the specification: subscribe,
receive a token-refreshed event, then change credentials; the prior
subscription is off the bus and receives nothing afterwards. -/
theorem claim8_witness :
    0 ∈ (runSub [SubEvent.handleChange true, SubEvent.deliver "TOKEN_REFRESHED"]
          initSubState).bus
    ∧ 0 ∉ (runSub ([SubEvent.handleChange true, SubEvent.deliver "TOKEN_REFRESHED"]
          ++ [SubEvent.handleChange true]) initSubState).bus
    ∧ ((0, "SIGNED_IN") ∈
        (runSub ([SubEvent.handleChange true, SubEvent.deliver "TOKEN_REFRESHED"]
          ++ SubEvent.handleChange true :: [SubEvent.deliver "SIGNED_IN"]) initSubState).delivered →
      (0, "SIGNED_IN") ∈
        (runSub [SubEvent.handleChange true, SubEvent.deliver "TOKEN_REFRESHED"]
          initSubState).delivered) :=
  ⟨by decide,
   (claim8_subscription_lifecycle
      [SubEvent.handleChange true, SubEvent.deliver "TOKEN_REFRESHED"]
      (SubEvent.handleChange true) [SubEvent.deliver "SIGNED_IN"] 0
      (Or.inr ⟨true, rfl⟩) (by decide)).2.1,
   (claim8_subscription_lifecycle
      [SubEvent.handleChange true, SubEvent.deliver "TOKEN_REFRESHED"]
      (SubEvent.handleChange true) [SubEvent.deliver "SIGNED_IN"] 0
      (Or.inr ⟨true, rfl⟩) (by decide)).2.2 "SIGNED_IN"⟩

end SupabaseJwt
